import Mathlib

/-! Verification development for the icx-rustc wrapper: a shallow embedding of
the flag-translation engine (src/translator.rs, src/cli.rs) and the diagnostic
stream classifier (src/diagnostics.rs, src/executor.rs), together with theorems
checking the natural-language specification against it.

Modelling conventions:
* Rust `PathBuf` values are modelled as strings; the `std::path` operations
  the code uses (`file_stem`, `extension`) are embedded below with Rust's
  documented semantics for the component split and the dot split.
* ANSI colour sequences added by the `colored` crate are presentation only;
  rendered text is modelled without them.
* `is_x86_feature_detected!` results and the host triple chosen by the
  `cfg`-conditional `detect_host_target` are runtime/compile-host inputs;
  they are passed in explicitly as a `HostFeatures` record.
* Sequential `cmd.args.push(..)` mutation is modelled by appending the list
  of arguments each translation step produces, in the source's step order. -/

namespace Icx

/-! Path model: the fragment of Rust `std::path` used by the translator. -/

/-- Split a character list at every occurrence of `sep` (Rust `str::split`). -/
def splitOnChar (sep : Char) : List Char → List (List Char)
  | [] => [[]]
  | c :: cs =>
      let r := splitOnChar sep cs
      if c = sep then [] :: r
      else
        match r with
        | [] => [[c]]
        | h :: t => (c :: h) :: t

/-- Rust `Path::file_name`: the final normal component of the path; `None` for
an empty path or a path ending in `..` (`.` and empty components are skipped). -/
def fileName (p : String) : Option String :=
  let comps := (splitOnChar '/' p.data).filter fun c => !c.isEmpty && c ≠ ['.']
  match comps.getLast? with
  | none => none
  | some c => if c = ['.', '.'] then none else some (String.mk c)

/-- Rust file-stem split of a file name: everything before the final dot; the
whole name when there is no dot or when the only dot is the leading one. -/
def stemOfName (n : String) : String :=
  match n.data.reverse.span (fun c => c ≠ '.') with
  | (_, []) => n
  | (_, _ :: stemR) => if stemR.isEmpty then n else String.mk stemR.reverse

/-- Rust extension split of a file name: everything after the final dot, unless
there is no dot or the only dot is the leading one. -/
def extOfName (n : String) : Option String :=
  match n.data.reverse.span (fun c => c ≠ '.') with
  | (_, []) => none
  | (extR, _ :: stemR) => if stemR.isEmpty then none else some (String.mk extR.reverse)

/-- Rust `Path::file_stem`. -/
def fileStem (p : String) : Option String := (fileName p).map stemOfName

/-- Rust `Path::extension`. -/
def fileExtension (p : String) : Option String := (fileName p).bind extOfName

/-- The input-file test of translator.rs step 9:
`file.extension().map_or(false, |e| e == "rs")`. -/
def isRsInput (f : String) : Bool :=
  match fileExtension f with
  | some e => e = "rs"
  | none => false

/-! Flag model (cli.rs `Args`, with clap defaults). -/

/-- cli.rs `OptLevel`. -/
inductive OptLevel
  | O0 | O1 | O2 | O3 | Ox
deriving DecidableEq, Repr

/-- cli.rs `Args`: the parsed flag model. -/
structure Args where
  files : List String
  opt_level : Option OptLevel
  msvc_opt : Option String
  compile_only : Bool
  output : Option String
  msvc_obj : Option String
  msvc_exe : Option String
  arch : Option String
  xhost : Bool
  defines : List String
  undefines : List String
  includes : List String
  warn_level : Option String
  wx : Bool
  link_args : List String
  verbose : Bool
  dry_run : Bool
  version : Bool
  help : Bool
  edition : Option String
  crate_type : Option String
  target : Option String
  release : Bool
  optimize_diagnostics : Bool
  raw_args : List String
deriving DecidableEq, Repr

/-- The flag model produced by clap when no flag is given (all options absent,
all switches off, `optimize-diagnostics` defaulting to true). -/
def defaultArgs : Args :=
  { files := [], opt_level := none, msvc_opt := none, compile_only := false,
    output := none, msvc_obj := none, msvc_exe := none, arch := none,
    xhost := false, defines := [], undefines := [], includes := [],
    warn_level := none, wx := false, link_args := [], verbose := false,
    dry_run := false, version := false, help := false, edition := none,
    crate_type := none, target := none, release := false,
    optimize_diagnostics := true, raw_args := [] }

/-- Character rewrite used by the slash normalization:
Rust `without_slash.replace(':', "=")` replaces every colon. -/
def colonToEq (c : Char) : Char := if c = ':' then '=' else c

/-- cli.rs `parse_args` per-token normalization: a token starting with a single
slash becomes a long flag (`--opt=val` when it holds a colon, `-opt` otherwise);
a token starting with a double slash or no slash is returned unchanged. -/
def normalizeArg (s : String) : String :=
  match s.data with
  | '/' :: rest =>
      match rest with
      | '/' :: _ => s
      | _ =>
          if rest.any (fun c => c = ':') then String.mk ('-' :: '-' :: rest.map colonToEq)
          else String.mk ('-' :: rest)
  | _ => s

/-! Translation engine (translator.rs). -/

/-- translator.rs `RustcCommand`. -/
structure RustcCommand where
  executable : String
  args : List String
  env_vars : List (String × String)
  input_files : List String
  output : Option String
deriving DecidableEq, Repr

/-- translator.rs `RustcCommand::new`. -/
def RustcCommand.new : RustcCommand :=
  { executable := "rustc", args := [], env_vars := [], input_files := [], output := none }

/-- Host detection inputs: the triple chosen by the `cfg`-conditional
`detect_host_target` and the three `is_x86_feature_detected!` probes used by
`detect_host_features`. -/
structure HostFeatures where
  targetTriple : String
  avx512f : Bool
  avx2 : Bool
  sse42 : Bool
deriving DecidableEq, Repr

/-- translator.rs `detect_host_features`: always starts from `+crt-static`,
then adds the widest detected extension set (avx512 over avx2 over sse4.2). -/
def detect_host_features (h : HostFeatures) : List String :=
  "+crt-static" ::
    (if h.avx512f then ["+avx512f", "+avx512vl"]
     else if h.avx2 then ["+avx2"]
     else if h.sse42 then ["+sse4.2"]
     else [])

/-- translator.rs `translate_optimization`, enum branch: `Ox` is treated as 3. -/
def enumLevelStr : OptLevel → String
  | .O0 => "0"
  | .O1 => "1"
  | .O2 => "2"
  | .O3 => "3"
  | .Ox => "3"

/-- translator.rs `translate_optimization`, legacy string branch. -/
def legacyLevelStr (s : String) : String :=
  if s = "0" ∨ s = "d" then "0"
  else if s = "1" then "1"
  else if s = "2" then "2"
  else if s = "3" ∨ s = "x" then "3"
  else "2"

/-- translator.rs `translate_optimization`: the level resolved from the
`(opt_level, msvc_opt)` pair, with the release / default fallbacks. -/
def optLevelOf (a : Args) : String :=
  match a.opt_level, a.msvc_opt with
  | some l, _ => enumLevelStr l
  | none, some s => legacyLevelStr s
  | none, none => if a.release then "3" else "2"

/-- The arguments `translate_optimization` pushes: the opt-level flag, and
`-Clto=fat` when the resolved level is `"3"`. -/
def optArgsOf (a : Args) : List String :=
  ["-Copt-level=" ++ optLevelOf a] ++
    (if optLevelOf a = "3" then ["-Clto=fat"] else [])

/-- translator.rs `translate_optimization` (mutation modelled as an append). -/
def translate_optimization (cmd : RustcCommand) (a : Args) : RustcCommand :=
  { cmd with args := cmd.args ++ optArgsOf a }

/-- translator.rs `translate_architecture` named-architecture table: the
feature list, and the warning printed in the fall-through branch. -/
def archResolve (n : String) : List String × List String :=
  if n = "AVX" then (["+avx"], [])
  else if n = "AVX2" then (["+avx2"], [])
  else if n = "AVX512" ∨ n = "CORE-AVX512" then (["+avx512f", "+avx512vl", "+avx512bw"], [])
  else if n = "SSE4.2" ∨ n = "CORE-AVX" then (["+sse4.2"], [])
  else if n = "SSE2" then (["+sse2"], [])
  else ([], ["[icx-rustc] warning: unknown arch '" ++ n ++ "', using default"])

/-- The arguments and stderr warnings of translator.rs `translate_architecture`:
the `xhost` branch short-circuits; otherwise the named table applies, and a
target-feature flag is pushed only for a non-empty feature list. -/
def archArgsWarns (a : Args) (h : HostFeatures) : List String × List String :=
  if a.xhost then
    (["--target=" ++ h.targetTriple] ++
       (if (detect_host_features h).isEmpty then []
        else ["-Ctarget-feature=" ++ String.intercalate "," (detect_host_features h)]),
     [])
  else
    match a.arch with
    | some n =>
        ((if (archResolve n).1.isEmpty then []
          else ["-Ctarget-feature=" ++ String.intercalate "," (archResolve n).1]),
         (archResolve n).2)
    | none => ([], [])

/-- translator.rs `translate_architecture` (argument push plus warnings). -/
def translate_architecture (cmd : RustcCommand) (a : Args) (h : HostFeatures) :
    RustcCommand × List String :=
  ({ cmd with args := cmd.args ++ (archArgsWarns a h).1 }, (archArgsWarns a h).2)

/-- translator.rs `TranslationError` cases: the `Invalid input filename`
context of `translate_output` and the `No input files specified` bail. -/
inductive TransError
  | invalidInput
  | noInputFiles
deriving DecidableEq, Repr

/-- translator.rs `translate_output`: priority `-o` over `/Fe` over `/Fo`
(the chained `or_else` calls); otherwise, under `compile_only` with exactly one
file argument, synthesize `stem.o` from that argument, failing when the stem
cannot be derived. -/
def translate_output (cmd : RustcCommand) (a : Args) : Except TransError RustcCommand :=
  match a.output, a.msvc_exe, a.msvc_obj with
  | some out, _, _ => .ok { cmd with output := some out }
  | none, some out, _ => .ok { cmd with output := some out }
  | none, none, some out => .ok { cmd with output := some out }
  | none, none, none =>
      match a.compile_only, a.files with
      | true, [input] =>
          match fileStem input with
          | none => .error .invalidInput
          | some stem => .ok { cmd with output := some (stem ++ ".o") }
      | _, _ => .ok cmd

/-- Rust `str::split_once('=')`: split at the first equals sign. -/
def splitOnceEq (s : String) : Option (String × String) :=
  match s.data.span (fun c => c ≠ '=') with
  | (_, []) => none
  | (pre, _ :: post) => some (String.mk pre, String.mk post)

/-- translator.rs `translate_defines`, define loop: each `name=value` define
becomes `--cfg=name=value`, each bare define `--cfg=name`, in order. -/
def defineArgsOf (a : Args) : List String :=
  a.defines.map fun d =>
    match splitOnceEq d with
    | some (n, v) => "--cfg=" ++ n ++ "=" ++ v
    | none => "--cfg=" ++ d

/-- translator.rs `translate_defines`, undefine loop: each undefine only emits
a stderr warning. -/
def undefWarns (a : Args) : List String :=
  a.undefines.map fun u => "[icx-rustc] warning: /U" ++ u ++ " not fully supported in Rust"

/-- translator.rs `translate_defines`. -/
def translate_defines (cmd : RustcCommand) (a : Args) : RustcCommand × List String :=
  ({ cmd with args := cmd.args ++ defineArgsOf a }, undefWarns a)

/-- The arguments translator.rs `translate_warnings` pushes: `-Dwarnings` for
`/WX`, then the warn-level mapping (unknown levels are a no-op). -/
def warnArgsOf (a : Args) : List String :=
  (if a.wx then ["-Dwarnings"] else []) ++
    (match a.warn_level with
     | some l =>
         if l = "0" then ["-Awarnings"]
         else if l = "1" then ["-Wwarnings", "-Adead_code"]
         else if l = "3" ∨ l = "all" then ["-Wwarnings"]
         else []
     | none => [])

/-- translator.rs `translate_warnings`. -/
def translate_warnings (cmd : RustcCommand) (a : Args) : RustcCommand :=
  { cmd with args := cmd.args ++ warnArgsOf a }

/-- The character set the `shlex` crate's quote treats as special. -/
def shlexSpecial (c : Char) : Bool :=
  c ∈ ['|', '&', ';', '<', '>', '(', ')', '$', Char.ofNat 96, '\\', Char.ofNat 34,
       Char.ofNat 39, ' ', '\t', '\r', '\n', '*', '?', '[', '#', '~', '=', '%']

/-- `shlex::quote`: empty strings become a pair of double quotes; strings with
a special character are wrapped in double quotes with backslash and double
quote escaped; anything else is returned unchanged. -/
def shlexQuote (s : String) : String :=
  if s.isEmpty then String.mk [Char.ofNat 34, Char.ofNat 34]
  else if s.data.any shlexSpecial then
    String.mk (Char.ofNat 34 ::
      (s.data.flatMap fun c =>
        if c = '\\' then ['\\', '\\']
        else if c = Char.ofNat 34 then ['\\', Char.ofNat 34]
        else [c]) ++ [Char.ofNat 34])
  else s

/-- The argument translator.rs `translate_linking` pushes: a single link-args
flag carrying the space-joined, shell-quoted linker pass-through arguments. -/
def linkArgsOf (a : Args) : List String :=
  if a.link_args.isEmpty then []
  else ["-Clink-args=" ++ shlexQuote (String.intercalate " " a.link_args)]

/-- translator.rs `translate_linking`. -/
def translate_linking (cmd : RustcCommand) (a : Args) : RustcCommand :=
  { cmd with args := cmd.args ++ linkArgsOf a }

/-- The arguments translator.rs `translate_rust_specific` pushes: edition,
crate-type and target when present, then the two unconditional flags. -/
def rustSpecificArgsOf (a : Args) : List String :=
  (a.edition.map (fun e => "--edition=" ++ e)).toList ++
    (a.crate_type.map (fun ct => "--crate-type=" ++ ct)).toList ++
    (a.target.map (fun t => "--target=" ++ t)).toList ++
    ["-Ccodegen-units=1", "-Cpanic=abort"]

/-- translator.rs `translate_rust_specific`. -/
def translate_rust_specific (cmd : RustcCommand) (a : Args) : RustcCommand :=
  { cmd with args := cmd.args ++ rustSpecificArgsOf a }

/-- translator.rs `translate`, steps 1 to 3: optimization, architecture, and
the `--emit=obj` flag under compile-only, before output resolution. -/
def translatePrefix (a : Args) (h : HostFeatures) : RustcCommand :=
  let c1 := translate_optimization RustcCommand.new a
  let c2 := (translate_architecture c1 a h).1
  if a.compile_only then { c2 with args := c2.args ++ ["--emit=obj"] } else c2

/-- translator.rs `translate`, steps 5 to 9 (after output resolution): defines,
warnings, linking, rust-specific flags, then input classification - every file
argument with an `rs` extension is recorded as an input file, every other file
argument is appended verbatim to the argument list. Returns the undefine
warnings alongside the command. -/
def translateRest (cmd4 : RustcCommand) (a : Args) : RustcCommand × List String :=
  let c5 := (translate_defines cmd4 a).1
  let c6 := translate_warnings c5 a
  let c7 := translate_linking c6 a
  let c8 := translate_rust_specific c7 a
  ({ c8 with
      args := c8.args ++ a.files.filter (fun f => !isRsInput f),
      input_files := c8.input_files ++ a.files.filter (fun f => isRsInput f) },
   undefWarns a)

/-- translator.rs `translate`: the full pipeline. Fails with `invalidInput`
when output synthesis fails, and with `noInputFiles` when no input file was
recognized and neither version nor help was requested; otherwise appends the
raw pass-through arguments last. The second component collects the stderr
warnings printed during translation (architecture, then undefines). -/
def translate (a : Args) (h : HostFeatures) :
    Except TransError (RustcCommand × List String) :=
  match translate_output (translatePrefix a h) a with
  | .error e => .error e
  | .ok cmd4 =>
      let r := translateRest cmd4 a
      if r.1.input_files.isEmpty && !a.version && !a.help then .error .noInputFiles
      else
        .ok ({ r.1 with args := r.1.args ++ a.raw_args },
             (translate_architecture (translate_optimization RustcCommand.new a) a h).2 ++ r.2)

/-! Diagnostic classifier (diagnostics.rs). -/

/-- The record kinds of the classifier, one per branch of
`DiagnosticReporter::report`. -/
inductive DiagKind
  | location (file row col : String)
  | error
  | warning
  | note
  | help
  | codeContext
  | plain
deriving DecidableEq, Repr

/-- The outcome of classifying one line: its kind, the rendered text (colour
codes omitted), and the `(warnings, errors)` counter delta `report` returns. -/
structure DiagResult where
  kind : DiagKind
  rendered : String
  warnings : Nat
  errors : Nat
deriving DecidableEq, Repr

/-- One backtracking step of the location regex `^\s*--> (.+):(\d+):(\d+)`:
try to read `file:row:col` with the file part of length `i`. The `.+` group
must be non-empty and cannot cross a newline; each `\d+` group is maximal. -/
def locTryAt (body : List Char) (i : Nat) : Option (String × String × String) :=
  if i = 0 then none
  else if (body.take i).any (fun c => c = '\n') then none
  else
    match body.drop i with
    | ':' :: rest =>
        let d1 := rest.takeWhile Char.isDigit
        if d1.isEmpty then none
        else
          match rest.drop d1.length with
          | ':' :: rest2 =>
              let d2 := rest2.takeWhile Char.isDigit
              if d2.isEmpty then none
              else some (String.mk (body.take i), String.mk d1, String.mk d2)
          | _ => none
    | _ => none

/-- The location regex `^\s*--> (.+):(\d+):(\d+)` of diagnostics.rs: leading
whitespace, the arrow marker, then the greedy `.+` prefers the longest file
part (largest split point first). Returns the three captures. -/
def locMatch (cs : List Char) : Option (String × String × String) :=
  let r := cs.dropWhile Char.isWhitespace
  if ("--> ".data).isPrefixOf r then
    let body := r.drop 4
    ((List.range body.length).reverse).findSome? (locTryAt body)
  else none

/-- The error regex `^error(\[E\d+\])?:` of diagnostics.rs: the length of the
matched prefix (the greedy optional group takes a bracketed code when one
follows, otherwise the bare `error:` marker matches). -/
def errorMatchLen (cs : List Char) : Option Nat :=
  if ("error".data).isPrefixOf cs then
    match cs.drop 5 with
    | '[' :: 'E' :: rest2 =>
        let ds := rest2.takeWhile Char.isDigit
        if ds.isEmpty then none
        else
          match rest2.drop ds.length with
          | ']' :: ':' :: _ => some (9 + ds.length)
          | _ => none
    | ':' :: _ => some 6
    | _ => none
  else none

/-- The warning regex `^warning:` of diagnostics.rs. -/
def warningMatches (cs : List Char) : Bool := ("warning:".data).isPrefixOf cs

/-- The note regex `^\s*= note:` of diagnostics.rs. -/
def noteMatches (cs : List Char) : Bool :=
  ("= note:".data).isPrefixOf (cs.dropWhile Char.isWhitespace)

/-- The help regex `^\s*= help:` of diagnostics.rs. -/
def helpMatches (cs : List Char) : Bool :=
  ("= help:".data).isPrefixOf (cs.dropWhile Char.isWhitespace)

/-- The code-context test of diagnostics.rs:
`line.trim_start().starts_with('|')`. -/
def codeContextMatches (cs : List Char) : Bool :=
  match cs.dropWhile Char.isWhitespace with
  | '|' :: _ => true
  | _ => false

/-- Fuelled worker for `removeAll`; the fuel is the input length, enough since
every step consumes at least one character. -/
def removeAllAux : Nat → List Char → List Char → List Char
  | 0, s, _ => s
  | _ + 1, [], _ => []
  | n + 1, c :: cs, pat =>
      if !pat.isEmpty && pat.isPrefixOf (c :: cs) then
        removeAllAux n ((c :: cs).drop pat.length) pat
      else c :: removeAllAux n cs pat

/-- Rust `str::replace(pat, "")`: remove every occurrence of `pat`, scanning
left to right. -/
def removeAll (s pat : List Char) : List Char := removeAllAux s.length s pat

/-- Rust `str::trim`: strip whitespace from both ends. -/
def trimChars (cs : List Char) : List Char :=
  ((cs.dropWhile Char.isWhitespace).reverse.dropWhile Char.isWhitespace).reverse

/-- diagnostics.rs `DiagnosticReporter::report`: classify one stderr line in
priority order (location, error, warning, note, help, code context, plain),
render it (colours omitted), and return the `(warnings, errors)` delta. The
error and warning branches strip the whole matched marker from the message
body and insert the fixed `[ICX]` engine tag. -/
def report (line : String) : DiagResult :=
  match locMatch line.data with
  | some (f, r, c) =>
      { kind := .location f r c,
        rendered := "     --> " ++ f ++ ":" ++ r ++ ":" ++ c,
        warnings := 0, errors := 0 }
  | none =>
      match errorMatchLen line.data with
      | some n =>
          { kind := .error, rendered := "error [ICX] " ++ String.mk (line.data.drop n),
            warnings := 0, errors := 1 }
      | none =>
          if warningMatches line.data then
            { kind := .warning,
              rendered := "warning [ICX] " ++ String.mk (line.data.drop 8),
              warnings := 1, errors := 0 }
          else if noteMatches line.data then
            { kind := .note,
              rendered := "     note: " ++
                String.mk (trimChars (removeAll line.data ("= note:".data))),
              warnings := 0, errors := 0 }
          else if helpMatches line.data then
            { kind := .help,
              rendered := "     help: " ++
                String.mk (trimChars (removeAll line.data ("= help:".data))),
              warnings := 0, errors := 0 }
          else if codeContextMatches line.data then
            { kind := .codeContext, rendered := "     " ++ line, warnings := 0, errors := 0 }
          else
            { kind := .plain, rendered := "     " ++ line, warnings := 0, errors := 0 }

/-- The per-line classification deltas accumulated over a whole stderr stream:
what the specification says the summary reporter receives. -/
def reportTotals (lines : List String) : Nat × Nat :=
  lines.foldl (fun acc l => (acc.1 + (report l).warnings, acc.2 + (report l).errors)) (0, 0)

/-- executor.rs `run`: the counts actually passed to `print_summary`. The
declared `warnings` and `errors` counters are never updated (the two counting
branches in the stderr thread are empty), and line 73 passes the literal pair
`(0, 0)` whatever the stream contained. -/
def summaryCounts (stderrLines : List String) : Nat × Nat :=
  let _ := stderrLines
  (0, 0)

/-! Specification-side definitions (from the spec's words, for comparison). -/

/-- Modelled from the spec: the optimization precedence as the claim states
it - an explicit enumerated level wins, else the legacy string map applies,
else the release shorthand gives the maximum level, else level 2. -/
def specResolvedLevel (a : Args) : String :=
  match a.opt_level with
  | some l => enumLevelStr l
  | none =>
      match a.msvc_opt with
      | some s => legacyLevelStr s
      | none => if a.release then "3" else "2"

/-- Modelled from the spec: exactly one opt-level flag from the resolved
level, plus the link-time-optimization flag exactly at the maximum level. -/
def specOptArgs (a : Args) : List String :=
  ["-Copt-level=" ++ specResolvedLevel a] ++
    (if specResolvedLevel a = "3" then ["-Clto=fat"] else [])

/-- Substring test used to state the code-preservation part of the rendering
claims. -/
def hasSubstr (s pat : List Char) : Bool :=
  match s with
  | [] => pat.isEmpty
  | c :: cs => pat.isPrefixOf (c :: cs) || hasSubstr cs pat

/-! Concrete inputs used by witnesses and counterexamples. -/

/-- A host on which no instruction-set extension probe fires. -/
def hostNoExt : HostFeatures :=
  { targetTriple := "x86_64-unknown-linux-gnu", avx512f := false, avx2 := false,
    sse42 := false }

/-- Flag model requesting host autodetection only. -/
def argsXHost : Args := { defaultArgs with xhost := true }

/-- Flag model naming an architecture outside the fixed table. -/
def argsFooArch : Args := { defaultArgs with arch := some "FOO" }

/-- Flag model for compile-only with a single source input and no output flag. -/
def argsFooRs : Args := { defaultArgs with compile_only := true, files := ["foo.rs"] }

/-- Flag model with one recognized input but two file arguments. -/
def argsC7 : Args :=
  { defaultArgs with compile_only := true, files := ["foo.rs", "bar.lib"] }

/-- Flag model whose only file argument has no derivable stem. -/
def argsC4 : Args := { defaultArgs with compile_only := true, files := [""] }

/-! Helper lemmas shared by the claim theorems. -/

/-- Outcome analysis of `translate_output`: it either fails with
`invalidInput` - exactly when no output flag is present, compile-only is set
and the single file argument has no derivable stem - or succeeds without
touching the input-file list. -/
theorem translate_output_spec (cmd : RustcCommand) (a : Args) :
    (translate_output cmd a = Except.error TransError.invalidInput ∧ a.output = none ∧
      a.msvc_exe = none ∧ a.msvc_obj = none ∧ a.compile_only = true ∧
      ∃ f, a.files = [f] ∧ fileStem f = none) ∨
    ∃ c, translate_output cmd a = Except.ok c ∧ c.input_files = cmd.input_files := by
  unfold translate_output
  split
  · exact Or.inr ⟨_, rfl, rfl⟩
  · exact Or.inr ⟨_, rfl, rfl⟩
  · exact Or.inr ⟨_, rfl, rfl⟩
  · rename_i ho he hb
    split
    · rename_i hc hf
      split
      · rename_i hs
        exact Or.inl ⟨rfl, ho, he, hb, hc, _, hf, hs⟩
      · exact Or.inr ⟨_, rfl, rfl⟩
    · exact Or.inr ⟨_, rfl, rfl⟩

/-- The steps before output resolution never record an input file. -/
theorem translatePrefix_input_files (a : Args) (h : HostFeatures) :
    (translatePrefix a h).input_files = [] := by
  unfold translatePrefix translate_architecture translate_optimization RustcCommand.new
  split <;> rfl

/-- The steps after output resolution only add the recognized source files to
the input-file list. -/
theorem translateRest_input_files (cmd : RustcCommand) (a : Args) :
    (translateRest cmd a).1.input_files =
      cmd.input_files ++ a.files.filter (fun f => isRsInput f) := rfl

/-! Claim theorems. -/

/-- C1: `translate_optimization` resolves exactly one optimization level with
the claimed precedence - explicit enum, else legacy string map, else release
shorthand giving the maximum, else 2 - and appends the link-time-optimization
flag exactly when the resolved level is the maximum. -/
theorem c1_optimization_precedence (cmd : RustcCommand) (a : Args) :
    translate_optimization cmd a = { cmd with args := cmd.args ++ specOptArgs a } := by
  have h : optLevelOf a = specResolvedLevel a := by
    unfold optLevelOf specResolvedLevel
    rcases a.opt_level with _ | l
    · rcases a.msvc_opt with _ | s <;> rfl
    · rfl
  unfold translate_optimization optArgsOf specOptArgs
  rw [h]

/-- C2 counterexample: the line `error[E0382]: use of moved value` is
classified as an error (delta (0, 1)), but the rendered output does not
contain the code `E0382`: the whole `error[E0382]:` marker is stripped. -/
theorem c2_counterexample :
    (report "error[E0382]: use of moved value").errors = 1 ∧
    (report "error[E0382]: use of moved value").warnings = 0 ∧
    hasSubstr (report "error[E0382]: use of moved value").rendered.data ("E0382".data)
      = false := by decide

/-- C2 (amended): classifying `error[E0382]: use of moved value` yields the
Error kind with counter delta (0, 1); the rendered body is the line with the
entire matched marker removed and the `[ICX]` tag inserted. -/
theorem c2_error_classification :
    report "error[E0382]: use of moved value" =
      { kind := DiagKind.error, rendered := "error [ICX]  use of moved value",
        warnings := 0, errors := 1 } := by decide

/-- C3: the counts `run` hands to the summary reporter are the literal pair
(0, 0) and differ from the classification totals of the stream; on the
one-line stream `error: x` classification totals are (0, 1). -/
theorem c3_summary_not_classification_totals :
    (∀ lines, summaryCounts lines = (0, 0)) ∧
    reportTotals ["error: x"] = (0, 1) ∧
    summaryCounts ["error: x"] ≠ reportTotals ["error: x"] :=
  ⟨fun _ => rfl, by decide, by decide⟩

/-- C5 (amended): under `xHost` the detected feature list always contains
`+crt-static` and is never empty, so a target-feature flag is always emitted
(after the target triple), whether or not any extension was detected. -/
theorem c5_xhost_target_feature (cmd : RustcCommand) (a : Args) (h : HostFeatures)
    (hx : a.xhost = true) :
    detect_host_features h ≠ [] ∧
    (translate_architecture cmd a h).1.args =
      cmd.args ++ ["--target=" ++ h.targetTriple,
        "-Ctarget-feature=" ++ String.intercalate "," (detect_host_features h)] := by
  constructor
  · unfold detect_host_features
    exact List.cons_ne_nil _ _
  · unfold translate_architecture archArgsWarns
    rw [hx]
    simp [detect_host_features]

/-- C5 witness: the amended claim evaluated at a host with no detected
extension. -/
theorem c5_witness :
    detect_host_features hostNoExt ≠ [] ∧
    (translate_architecture RustcCommand.new argsXHost hostNoExt).1.args =
      RustcCommand.new.args ++ ["--target=" ++ hostNoExt.targetTriple,
        "-Ctarget-feature=" ++ String.intercalate "," (detect_host_features hostNoExt)] :=
  c5_xhost_target_feature RustcCommand.new argsXHost hostNoExt rfl

/-- C5 counterexample: with no extension detected, the claim says no
target-feature flag appears, yet the argument list carries
`-Ctarget-feature=+crt-static`. -/
theorem c5_counterexample :
    hostNoExt.avx512f = false ∧ hostNoExt.avx2 = false ∧ hostNoExt.sse42 = false ∧
    argsXHost.xhost = true ∧
    (translate_architecture RustcCommand.new argsXHost hostNoExt).1.args =
      ["--target=x86_64-unknown-linux-gnu", "-Ctarget-feature=+crt-static"] :=
  ⟨rfl, rfl, rfl, rfl, rfl⟩

/-- C8: any architecture name outside the fixed table leaves the command
unchanged (no target-feature flag, translation still succeeds) and emits
exactly the non-fatal unknown-architecture warning. -/
theorem c8_unknown_arch (cmd : RustcCommand) (a : Args) (h : HostFeatures) (n : String)
    (hx : a.xhost = false) (ha : a.arch = some n)
    (hn : n ∉ ["AVX", "AVX2", "AVX512", "CORE-AVX512", "SSE4.2", "CORE-AVX", "SSE2"]) :
    translate_architecture cmd a h =
      (cmd, ["[icx-rustc] warning: unknown arch '" ++ n ++ "', using default"]) := by
  simp only [List.mem_cons, List.not_mem_nil, or_false, not_or] at hn
  obtain ⟨h1, h2, h3, h4, h5, h6, h7⟩ := hn
  unfold translate_architecture archArgsWarns archResolve
  rw [hx, ha]
  simp [h1, h2, h3, h4, h5, h6, h7]

/-- C8 witness: the unknown name `FOO` produces only the warning. -/
theorem c8_witness :
    translate_architecture RustcCommand.new argsFooArch hostNoExt =
      (RustcCommand.new, ["[icx-rustc] warning: unknown arch 'FOO', using default"]) := by
  rw [c8_unknown_arch RustcCommand.new argsFooArch hostNoExt "FOO" rfl rfl (by decide)]
  rfl

/-- C4 (amended): with zero recognized input files and neither version nor
help, `translate` fails - with `NoInputFiles`, unless output synthesis already
failed with `InvalidInput` (compile-only, no output flag, a single file
argument with no derivable stem). With version or help set, any failure can
only be `InvalidInput`, never `NoInputFiles`. -/
theorem c4_no_input_files (a : Args) (h : HostFeatures) :
    (a.files.filter (fun f => isRsInput f) = [] → a.version = false → a.help = false →
      translate a h = Except.error TransError.noInputFiles ∨
        (translate a h = Except.error TransError.invalidInput ∧ a.compile_only = true ∧
          a.output = none ∧ a.msvc_exe = none ∧ a.msvc_obj = none ∧
          ∃ f, a.files = [f] ∧ fileStem f = none)) ∧
    (a.version = true ∨ a.help = true →
      ∀ e, translate a h = Except.error e → e = TransError.invalidInput) := by
  have hspec := translate_output_spec (translatePrefix a h) a
  constructor
  · intro hfil hv hh
    rcases hspec with ⟨herr, ho, he, hb, hc, f, hf, hs⟩ | ⟨c, hok, hin⟩
    · refine Or.inr ⟨?_, hc, ho, he, hb, f, hf, hs⟩
      unfold translate
      rw [herr]
    · refine Or.inl ?_
      have hempty : (translateRest c a).1.input_files = [] := by
        rw [translateRest_input_files, hin, translatePrefix_input_files, hfil]
        rfl
      unfold translate
      rw [hok]
      simp [hempty, hv, hh]
  · intro hvh e hte
    rcases hspec with ⟨herr, _⟩ | ⟨c, hok, hin⟩
    · unfold translate at hte
      rw [herr] at hte
      simp only [Except.error.injEq] at hte
      exact hte.symm
    · unfold translate at hte
      rw [hok] at hte
      rcases hvh with hv | hh
      · rw [hv] at hte
        simp at hte
      · rw [hh] at hte
        simp at hte

/-- C4 witness: the amended claim evaluated at the empty flag model, where
translation fails with `NoInputFiles`. -/
theorem c4_witness :
    translate defaultArgs hostNoExt = Except.error TransError.noInputFiles ∨
      (translate defaultArgs hostNoExt = Except.error TransError.invalidInput ∧
        defaultArgs.compile_only = true ∧ defaultArgs.output = none ∧
        defaultArgs.msvc_exe = none ∧ defaultArgs.msvc_obj = none ∧
        ∃ f, defaultArgs.files = [f] ∧ fileStem f = none) :=
  (c4_no_input_files defaultArgs hostNoExt).1 rfl rfl rfl

/-- C4 counterexample: a flag model with zero recognized inputs, no version
and no help on which `translate` fails with `InvalidInput`, not the
`NoInputFiles` error the claim promises. -/
theorem c4_counterexample :
    argsC4.files.filter (fun f => isRsInput f) = [] ∧ argsC4.version = false ∧
    argsC4.help = false ∧
    translate argsC4 hostNoExt = Except.error TransError.invalidInput ∧
    TransError.invalidInput ≠ TransError.noInputFiles :=
  ⟨rfl, rfl, rfl, rfl, by decide⟩

/-- C6: classification is priority ordered - a line matching the location
pattern always yields the Location kind and delta (0, 0), whatever else the
line contains; a non-location line matching the error pattern is classified
Error (the warning check comes later); and the concrete location line of the
spec round-trip extracts file `src/main.rs`, row 3, column 5. -/
theorem c6_classification_priority :
    (∀ s f r c, locMatch s.data = some (f, r, c) →
      (report s).kind = DiagKind.location f r c ∧
        (report s).warnings = 0 ∧ (report s).errors = 0) ∧
    (∀ s, locMatch s.data = none → errorMatchLen s.data ≠ none →
      (report s).kind = DiagKind.error) ∧
    ((report "   --> src/main.rs:3:5").kind = DiagKind.location "src/main.rs" "3" "5" ∧
      (report "   --> src/main.rs:3:5").warnings = 0 ∧
      (report "   --> src/main.rs:3:5").errors = 0) := by
  refine ⟨?_, ?_, by decide⟩
  · intro s f r c hloc
    unfold report
    rw [hloc]
    exact ⟨rfl, rfl, rfl⟩
  · intro s h0 h1
    unfold report
    rw [h0]
    rcases he : errorMatchLen s.data with _ | n
    · exact absurd he h1
    · rfl

/-- C6 witness: the priority rules applied at the round-trip location line
and at a concrete error line. -/
theorem c6_witness :
    (report "   --> src/main.rs:3:5").warnings = 0 ∧
    (report "error: boom").kind = DiagKind.error :=
  ⟨(c6_classification_priority.1 "   --> src/main.rs:3:5" "src/main.rs" "3" "5"
      (by decide)).2.1,
   c6_classification_priority.2.1 "error: boom" (by decide) (by decide)⟩

/-- C7 (amended): output resolution priority is explicit output flag, else
the executable-output flag, else the object-output flag; with none of them,
the synthesis branch requires compile-only and exactly one file argument
(recognized source input or not), produces that argument's stem plus `.o`,
and fails with `InvalidInput` when the stem cannot be derived; in every other
case no output is set. -/
theorem c7_output_priority (cmd : RustcCommand) (a : Args) :
    (∀ p, a.output = some p →
      translate_output cmd a = Except.ok { cmd with output := some p }) ∧
    (∀ p, a.output = none → a.msvc_exe = some p →
      translate_output cmd a = Except.ok { cmd with output := some p }) ∧
    (∀ p, a.output = none → a.msvc_exe = none → a.msvc_obj = some p →
      translate_output cmd a = Except.ok { cmd with output := some p }) ∧
    (∀ f st, a.output = none → a.msvc_exe = none → a.msvc_obj = none →
      a.compile_only = true → a.files = [f] → fileStem f = some st →
      translate_output cmd a = Except.ok { cmd with output := some (st ++ ".o") }) ∧
    (∀ f, a.output = none → a.msvc_exe = none → a.msvc_obj = none →
      a.compile_only = true → a.files = [f] → fileStem f = none →
      translate_output cmd a = Except.error TransError.invalidInput) ∧
    (a.output = none → a.msvc_exe = none → a.msvc_obj = none →
      (a.compile_only = false ∨ a.files.length ≠ 1) →
      translate_output cmd a = Except.ok cmd) := by
  refine ⟨?_, ?_, ?_, ?_, ?_, ?_⟩
  · intro p hp
    unfold translate_output
    rw [hp]
  · intro p h1 h2
    unfold translate_output
    rw [h1, h2]
  · intro p h1 h2 h3
    unfold translate_output
    rw [h1, h2, h3]
  · intro f st h1 h2 h3 h4 h5 h6
    unfold translate_output
    rw [h1, h2, h3, h4, h5]
    simp [h6]
  · intro f h1 h2 h3 h4 h5 h6
    unfold translate_output
    rw [h1, h2, h3, h4, h5]
    simp [h6]
  · intro h1 h2 h3 hcf
    unfold translate_output
    rw [h1, h2, h3]
    rcases hcf with hc | hl
    · rw [hc]
    · rcases hco : a.compile_only
      · rfl
      · rcases hf : a.files with _ | ⟨x, _ | ⟨y, t⟩⟩
        · rfl
        · rw [hf] at hl
          simp at hl
        · rfl

/-- C7 witness: compile-only with the single input `foo.rs` and no output
flag resolves the output path to `foo.o`. -/
theorem c7_witness :
    translate_output RustcCommand.new argsFooRs =
      Except.ok { RustcCommand.new with output := some ("foo" ++ ".o") } :=
  (c7_output_priority RustcCommand.new argsFooRs).2.2.2.1 "foo.rs" "foo"
    rfl rfl rfl rfl rfl (by decide)

/-- C7 counterexample: with exactly one recognized input file but two file
arguments, no output is synthesized (the code tests the count of all file
arguments, not of recognized inputs), contradicting the claim's `foo.o`. -/
theorem c7_counterexample :
    argsC7.files.filter (fun f => isRsInput f) = ["foo.rs"] ∧
    argsC7.compile_only = true ∧ argsC7.output = none ∧ argsC7.msvc_exe = none ∧
    argsC7.msvc_obj = none ∧
    (translate argsC7 hostNoExt).map (fun cw => cw.1.output) = Except.ok none :=
  ⟨rfl, rfl, rfl, rfl, rfl, rfl⟩

/-- C9: the normalization pass rewrites a single-slash token with a colon to
the double-dash form with every colon replaced by an equals sign, rewrites a
single-slash token without a colon to a single-dash form, and leaves tokens
starting with a double slash or not starting with a slash unchanged; in
particular `/D:NAME=VALUE` becomes `--D=NAME=VALUE` and `/W1` becomes `-W1`. -/
theorem c9_slash_normalization :
    (∀ cs : List Char, normalizeArg (String.mk ('/' :: '/' :: cs)) =
      String.mk ('/' :: '/' :: cs)) ∧
    (∀ (c : Char) (cs : List Char), c ≠ '/' →
      normalizeArg (String.mk (c :: cs)) = String.mk (c :: cs)) ∧
    normalizeArg "" = "" ∧
    (∀ rest : List Char, rest.head? ≠ some '/' → rest.any (fun c => c = ':') = false →
      normalizeArg (String.mk ('/' :: rest)) = String.mk ('-' :: rest)) ∧
    (∀ rest : List Char, rest.head? ≠ some '/' → rest.any (fun c => c = ':') = true →
      normalizeArg (String.mk ('/' :: rest)) =
        String.mk ('-' :: '-' :: rest.map colonToEq)) ∧
    normalizeArg "/D:NAME=VALUE" = "--D=NAME=VALUE" ∧
    normalizeArg "/W1" = "-W1" := by
  refine ⟨fun cs => rfl, ?_, rfl, ?_, ?_, by decide, by decide⟩
  · intro c cs hc
    unfold normalizeArg
    split
    · rename_i heq
      simp only [List.cons.injEq] at heq
      exact absurd heq.1 hc
    · rfl
  · intro rest h1 h2
    rcases rest with _ | ⟨r, rs⟩
    · rfl
    · have hr : r ≠ '/' := by simpa using h1
      unfold normalizeArg
      simp only []
      split
      · rename_i heq
        simp only [List.cons.injEq] at heq
        exact absurd heq.1 hr
      · rw [h2]
        rfl
  · intro rest h1 h2
    rcases rest with _ | ⟨r, rs⟩
    · simp at h2
    · have hr : r ≠ '/' := by simpa using h1
      unfold normalizeArg
      simp only []
      split
      · rename_i heq
        simp only [List.cons.injEq] at heq
        exact absurd heq.1 hr
      · rw [h2]
        rfl

/-- C9 witness: the two rewrite rules applied at the spec's concrete tokens. -/
theorem c9_witness :
    normalizeArg (String.mk ('/' :: "W1".data)) = String.mk ('-' :: "W1".data) ∧
    normalizeArg (String.mk ('/' :: "D:NAME=VALUE".data)) =
      String.mk ('-' :: '-' :: "D:NAME=VALUE".data.map colonToEq) :=
  ⟨c9_slash_normalization.2.2.2.1 ("W1".data) (by decide) (by decide),
   c9_slash_normalization.2.2.2.2.1 ("D:NAME=VALUE".data) (by decide) (by decide)⟩

/-- C10: the counter delta of classifying any single line is (0, 0), (1, 0)
or (0, 1): no line increments both counters and no counter moves by more
than one. -/
theorem c10_delta_range (s : String) :
    ((report s).warnings, (report s).errors) = (0, 0) ∨
    ((report s).warnings, (report s).errors) = (1, 0) ∨
    ((report s).warnings, (report s).errors) = (0, 1) := by
  unfold report
  split
  · simp
  · split
    · simp
    · split
      · simp
      · split
        · simp
        · split
          · simp
          · split
            · simp
            · simp

end Icx
